import Mathlib

/-!
Shallow embedding of `python/pdf_utilities/extract_page_range.py`.

The module slices a contiguous page range out of one or more PDF documents:
`parse_range` validates a `"start-end"` string, `extract_page_range` copies a
page range of one source document to a destination path, `process_many` is the
programmatic batch driver, and `run_interactive` drives the same loop from a
Tk dialog flow.

Modelling decisions:
* A document is a `List α` of pages (`α` abstracts the page payload).
* The filesystem is explicit state (`FS`): an association list of file
  contents where the most recent binding of a path shadows older ones, the
  set of directories that exist, and the trace of file writes in order.
* Python `str.split("-")`, `str.strip()`, `int(...)`, list slicing
  (including negative indices), `pathlib.Path.stem/.suffix/.name/.parent`
  and the `/` path join are re-implemented structurally over `List Char`
  so that every definition evaluates by kernel reduction.  Python `int()`
  is modelled as optional sign plus ASCII digits (exotic literals such as
  digit-group underscores or non-ASCII digits are outside the model).
* Exceptions are `Except String`; the Tk dialog presentation layer is out
  of scope (as in the spec), so the interactive loop is modelled from the
  point where the sources, output directory and range are already chosen.
-/

set_option autoImplicit false

deriving instance DecidableEq for Except

namespace PdfUtil

variable {α : Type}

/-! ## Python string primitives, re-implemented structurally -/

/-- Python `str.split(sep)` for a one-character separator, on char lists.
`splitOnChar c l` never returns `[]` (an empty input gives `[[]]`),
matching `"".split("-") == ['']`. -/
def splitOnChar (c : Char) : List Char → List (List Char)
  | [] => [[]]
  | x :: xs =>
    match splitOnChar c xs with
    | [] => [[]]
    | r :: rs => if x = c then [] :: r :: rs else (x :: r) :: rs

/-- Inverse of `splitOnChar`: interleave the separator back. -/
def joinWithChar (c : Char) : List (List Char) → List Char
  | [] => []
  | [l] => l
  | l :: ls => l ++ c :: joinWithChar c ls

/-- Python `str.strip()`: drop whitespace from both ends. -/
def trimChars (l : List Char) : List Char :=
  ((l.dropWhile Char.isWhitespace).reverse.dropWhile Char.isWhitespace).reverse

/-- Value of a non-empty all-digit char list, `none` otherwise. -/
def digitsVal (l : List Char) : Option Nat :=
  if l ≠ [] ∧ l.all Char.isDigit then
    some (l.foldl (fun a c => 10 * a + (c.toNat - 48)) 0)
  else none

/-- Python `int(s)`: strips surrounding whitespace, then an optional sign
followed by one or more ASCII digits.  `none` models `ValueError`. -/
def pyInt? (s : String) : Option Int :=
  match trimChars s.data with
  | [] => none
  | c :: cs =>
    if c = '+' then (digitsVal cs).map Int.ofNat
    else if c = '-' then (digitsVal cs).map (fun n => -(Int.ofNat n))
    else (digitsVal (c :: cs)).map Int.ofNat

/-- Python `str.rfind(c)`: index of the last occurrence of `c`. -/
def rfindIdx (c : Char) : List Char → Option Nat
  | [] => none
  | x :: xs =>
    match rfindIdx c xs with
    | some i => some (i + 1)
    | none => if x = c then some 0 else none

/-! ## `parse_range` -/

/-- `range_str.split("-")`, as Lean strings. -/
def rangeParts (range_str : String) : List String :=
  (splitOnChar '-' range_str.data).map String.mk

/-- The `ValueError` message `parse_range` raises for any invalid input. -/
def rangeErrMsg (range_str : String) : String :=
  "Invalid range format: \x27" ++ range_str ++ "\x27. Use e.g. \x2710-25\x27."

/-- `parse_range` from the source: split on `"-"` into exactly two parts,
convert each stripped part with `int`, and require
`1 ≤ start`, `1 ≤ end` and `start ≤ end`; every failure (wrong number of
parts, non-integer part, or failed validation) is caught and re-raised as
the single descriptive `ValueError` message. -/
def parse_range (range_str : String) : Except String (Int × Int) :=
  match rangeParts range_str with
  | [start_str, end_str] =>
    match pyInt? start_str, pyInt? end_str with
    | some start, some endP =>
      if start < 1 ∨ endP < 1 ∨ start > endP then Except.error (rangeErrMsg range_str)
      else Except.ok (start, endP)
    | _, _ => Except.error (rangeErrMsg range_str)
  | _ => Except.error (rangeErrMsg range_str)

/-! ## Python list slicing -/

/-- Clamp one bound of a Python slice `l[i:j]` to an index in `[0, len]`:
a negative bound counts from the end (`max 0 (len + i)`), a non-negative
bound is clamped to `len`. -/
def pySliceIdx (len : Nat) (i : Int) : Nat :=
  if i < 0 then ((len : Int) + i).toNat else min i.toNat len

/-- Python `l[i:j]` for integer bounds. -/
def pySlice (l : List α) (i j : Int) : List α :=
  let lo := pySliceIdx l.length i
  let hi := pySliceIdx l.length j
  (l.drop lo).take (hi - lo)

/-! ## `pathlib.Path` fragments -/

/-- `Path(p).name`: the final `/`-separated component. -/
def pyName (p : String) : String :=
  match (splitOnChar '/' p.data).getLast? with
  | some l => String.mk l
  | none => p

/-- `Path(p).stem`: the final component without its suffix.  The suffix is
cut only when the last dot sits strictly inside the name (CPython:
`0 < i < len(name) - 1`). -/
def pyStem (p : String) : String :=
  let n := (pyName p).data
  match rfindIdx '.' n with
  | some i => if 0 < i ∧ i < n.length - 1 then String.mk (n.take i) else String.mk n
  | none => String.mk n

/-- `Path(p).suffix`: the extension of the final component, with the dot;
`""` when there is none. -/
def pySuffix (p : String) : String :=
  let n := (pyName p).data
  match rfindIdx '.' n with
  | some i => if 0 < i ∧ i < n.length - 1 then String.mk (n.drop i) else ""
  | none => ""

/-- `Path(p).parent` as a string: all but the last component, `"."` when the
path is a bare name. -/
def parentPath (p : String) : String :=
  let comps := splitOnChar '/' p.data
  if comps.length ≤ 1 then "." else String.mk (joinWithChar '/' comps.dropLast)

/-- `str(Path(dir) / name)`: join with a `/` unless `dir` already ends in
one (pathlib normalises the trailing separator away). -/
def joinPath (dir name : String) : String :=
  match dir.data.getLast? with
  | some c => if c = '/' then dir ++ name else dir ++ "/" ++ name
  | none => dir ++ "/" ++ name

/-- The directories `Path(p).mkdir(parents=True)` guarantees to exist
afterwards: every non-empty component-prefix of `p`. -/
def pathAncestors (p : String) : List String :=
  let comps := splitOnChar '/' p.data
  (List.range comps.length).map (fun i => String.mk (joinWithChar '/' (comps.take (i + 1))))

/-! ## The filesystem state -/

/-- Explicit filesystem state: current file contents (most recent binding of
a path first), existing directories, and the ordered trace of file writes. -/
structure FS (α : Type) where
  files : List (String × List α)
  dirs : List String
  writes : List String
  deriving DecidableEq, Repr

/-- Contents currently visible at a path: the most recent binding. -/
def lookupFile : List (String × List α) → String → Option (List α)
  | [], _ => none
  | (k, v) :: rest, q => if q = k then some v else lookupFile rest q

/-- Contents of the file at `p`, if it exists. -/
def FS.lookup (fs : FS α) (p : String) : Option (List α) :=
  lookupFile fs.files p

/-- Write (create or entirely replace) the file at `p`. -/
def FS.write (fs : FS α) (p : String) (contents : List α) : FS α :=
  ⟨(p, contents) :: fs.files, fs.dirs, fs.writes ++ [p]⟩

/-- `Path(d).mkdir(parents=True, exist_ok=True)`: afterwards `d` and all its
ancestors exist; never fails, in particular not when `d` already exists. -/
def FS.mkdirParents (fs : FS α) (d : String) : FS α :=
  ⟨fs.files, pathAncestors d ++ fs.dirs, fs.writes⟩

/-! ## `extract_page_range` -/

/-- `extract_page_range` from the source: open the source document, fail if
`start` lies beyond its page count, otherwise clamp `end` to the page count,
copy pages `reader.pages[start - 1 : end]` into a fresh writer, create the
destination's parent directories, and write the output file.  The `none`
branch models the `FileNotFoundError` `PdfReader` raises for a missing
source (its exact message is the interpreter's, not this module's). -/
def extract_page_range (fs : FS α) (pdf_path : String) (start endP : Int)
    (output_path : String) : Except String (FS α) :=
  match FS.lookup fs pdf_path with
  | none => Except.error ("No such file or directory: \x27" ++ pdf_path ++ "\x27")
  | some pages =>
    let num_pages : Int := pages.length
    if start > num_pages then
      Except.error ("Range " ++ toString start ++ "-" ++ toString endP ++
        " exceeds PDF \x27" ++ pyName pdf_path ++ "\x27 (" ++ toString num_pages ++ " pages).")
    else
      let endC := min endP num_pages
      let outPages := pySlice pages (start - 1) endC
      Except.ok ((fs.mkdirParents (parentPath output_path)).write output_path outPages)

/-! ## `process_many` and the interactive batch loop -/

/-- The loop body of `process_many`: for each source, derive the destination
name `f"{pdf_path.stem}_pages_{start}-{end}{pdf_path.suffix}"` inside the
output directory and extract; the first exception propagates, so the first
component is the filesystem as left behind at that point and the remaining
sources are not processed. -/
def process_many_go (fs : FS α) (pdfs : List String) (start endP : Int)
    (output_dir : String) : FS α × Except String Unit :=
  match pdfs with
  | [] => (fs, Except.ok ())
  | pdf_path :: rest =>
    let out_name := pyStem pdf_path ++ "_pages_" ++ toString start ++ "-" ++
      toString endP ++ pySuffix pdf_path
    let dest := joinPath output_dir out_name
    match extract_page_range fs pdf_path start endP dest with
    | Except.error e => (fs, Except.error e)
    | Except.ok fs1 => process_many_go fs1 rest start endP output_dir

/-- `process_many` from the source: create the output directory
(`parents=True, exist_ok=True`) and run the loop.  The Python function is
annotated `-> None` and has no `return` statement, so the value it returns
to a successful caller is the unit in `Except.ok ()`. -/
def process_many (fs : FS α) (pdfs : List String) (start endP : Int)
    (output_dir : String) : FS α × Except String Unit :=
  process_many_go (fs.mkdirParents output_dir) pdfs start endP output_dir

/-- The extraction loop of `run_interactive` (the dialog steps that choose
`pdfs`, `output_dir` and the range precede it and are out of scope): each
source gets the same derived destination name, any exception for one source
is appended to `errors` as `(pdf.name, str(e))` and the loop continues with
the remaining sources; the final filesystem and the collected errors are
what the closing summary dialog reports. -/
def run_interactive_batch (fs : FS α) (pdfs : List String) (start endP : Int)
    (output_dir : String) : FS α × List (String × String) :=
  match pdfs with
  | [] => (fs, [])
  | pdf :: rest =>
    let out_name := pyStem pdf ++ "_pages_" ++ toString start ++ "-" ++
      toString endP ++ pySuffix pdf
    let dest := joinPath output_dir out_name
    match extract_page_range fs pdf start endP dest with
    | Except.error e =>
      let r := run_interactive_batch fs rest start endP output_dir
      (r.1, (pyName pdf, e) :: r.2)
    | Except.ok fs1 => run_interactive_batch fs1 rest start endP output_dir

/-- The destination path the batch drivers derive for one source:
`output_dir / f"{stem}_pages_{start}-{end}{suffix}"`. -/
def destFor (output_dir pdf : String) (start endP : Int) : String :=
  joinPath output_dir (pyStem pdf ++ "_pages_" ++ toString start ++ "-" ++
    toString endP ++ pySuffix pdf)

/-- Spec section 6: the written output paths, in input order. -/
def plannedOutputs (pdfs : List String) (start endP : Int) (output_dir : String) :
    List String :=
  pdfs.map (fun p => destFor output_dir p start endP)

/-! ## Basic lemmas about the filesystem model -/

theorem FS.lookup_write_self (fs : FS α) (p : String) (c : List α) :
    (fs.write p c).lookup p = some c := by
  simp [FS.lookup, FS.write, lookupFile]

theorem FS.lookup_write_ne (fs : FS α) (p q : String) (c : List α) (h : q ≠ p) :
    (fs.write p c).lookup q = fs.lookup q := by
  simp [FS.lookup, FS.write, lookupFile, h]

theorem FS.lookup_mkdir (fs : FS α) (d q : String) :
    (fs.mkdirParents d).lookup q = fs.lookup q := rfl

/-! ## Lemmas about `extract_page_range` -/

/-- A successful extraction: the output file holds the Python slice
`pages[start - 1 : min end num_pages]`, after the parent directories of the
destination are created. -/
theorem extract_ok (fs : FS α) (p : String) (s e : Int) (out : String) (pages : List α)
    (hp : FS.lookup fs p = some pages) (hs : s ≤ (pages.length : Int)) :
    extract_page_range fs p s e out =
      Except.ok ((fs.mkdirParents (parentPath out)).write out
        (pySlice pages (s - 1) (min e (pages.length : Int)))) := by
  simp only [extract_page_range, hp]
  rw [if_neg (by omega)]

/-- The failing extraction: `start` beyond the page count raises the bounds
`ValueError`. -/
theorem extract_err (fs : FS α) (p : String) (s e : Int) (out : String) (pages : List α)
    (hp : FS.lookup fs p = some pages) (hs : (pages.length : Int) < s) :
    extract_page_range fs p s e out =
      Except.error ("Range " ++ toString s ++ "-" ++ toString e ++ " exceeds PDF \x27" ++
        pyName p ++ "\x27 (" ++ toString ((pages.length : Int)) ++ " pages).") := by
  simp only [extract_page_range, hp]
  rw [if_pos (by omega)]

/-- Whatever succeeded was a `mkdir` of the destination's parent followed by
one write of the destination. -/
theorem extract_ok_shape (fs fs' : FS α) (p : String) (s e : Int) (out : String)
    (h : extract_page_range fs p s e out = Except.ok fs') :
    ∃ c, fs' = (fs.mkdirParents (parentPath out)).write out c := by
  unfold extract_page_range at h
  cases hp : FS.lookup fs p with
  | none => rw [hp] at h; exact absurd h (by simp)
  | some pages =>
    rw [hp] at h
    simp only [] at h
    by_cases hc : s > (pages.length : Int)
    · rw [if_pos hc] at h; exact absurd h (by simp)
    · rw [if_neg hc] at h
      exact ⟨_, (Except.ok.inj h).symm⟩

/-! ## Lemmas about Python slicing -/

/-- With in-range non-negative bounds, `l[i:j]` is `take j` then `drop i`. -/
theorem pySlice_eq_take_drop (l : List α) (i j : Int) (h0 : 0 ≤ i)
    (hil : i ≤ (l.length : Int)) (hj : 0 ≤ j) (hjl : j ≤ (l.length : Int)) :
    pySlice l i j = (l.take j.toNat).drop i.toNat := by
  simp only [pySlice, pySliceIdx]
  rw [if_neg (by omega), if_neg (by omega)]
  have h1 : min i.toNat l.length = i.toNat := by omega
  have h2 : min j.toNat l.length = j.toNat := by omega
  rw [h1, h2, List.drop_take]

/-- An empty slice: a non-negative upper bound at or below the lower bound
selects nothing. -/
theorem pySlice_empty (l : List α) (i j : Int) (h0 : 0 ≤ j) (h : j ≤ i) :
    pySlice l i j = [] := by
  simp only [pySlice, pySliceIdx]
  rw [if_neg (by omega), if_neg (by omega)]
  have h1 : min j.toNat l.length - min i.toNat l.length = 0 := by omega
  rw [h1, List.take_zero]

/-! ## Claims about `extract_page_range` -/

/-- C1: for a source with `n` pages, `1 ≤ start ≤ n` and `end ≥ start`, the
extractor succeeds, clamps `end` to `n`, and writes an output document that
is exactly pages `start` through `min end n` of the source in original
order, of length `min end n - start + 1`. -/
theorem claim_C1_extract_in_range (fs : FS α) (p out : String) (s e : Int) (pages : List α)
    (hp : FS.lookup fs p = some pages)
    (h1 : 1 ≤ s) (h2 : s ≤ (pages.length : Int)) (h3 : s ≤ e) :
    ∃ fs', extract_page_range fs p s e out = Except.ok fs' ∧
      FS.lookup fs' out =
        some ((pages.take (min e (pages.length : Int)).toNat).drop (s - 1).toNat) ∧
      ((pages.take (min e (pages.length : Int)).toNat).drop (s - 1).toNat).length
        = (min e (pages.length : Int) - s + 1).toNat := by
  refine ⟨_, extract_ok fs p s e out pages hp h2, ?_, ?_⟩
  · rw [FS.lookup_write_self,
      pySlice_eq_take_drop pages (s - 1) (min e (pages.length : Int))
        (by omega) (by omega) (by omega) (by omega)]
  · simp only [List.length_drop, List.length_take]
    omega

/-- C1 witness: from a 10-page document, range (2, 4) yields exactly pages
2, 3, 4 (a 3-page output) and range (8, 20) yields pages 8, 9, 10 without
error. -/
theorem claim_C1_extract_in_range_witness :
    (∃ fs', extract_page_range
        (⟨[("doc.pdf", [1, 2, 3, 4, 5, 6, 7, 8, 9, 10])], [], []⟩ : FS Nat)
        "doc.pdf" 2 4 "out.pdf" = Except.ok fs' ∧
      FS.lookup fs' "out.pdf" = some [2, 3, 4] ∧ ([2, 3, 4] : List Nat).length = 3) ∧
    (∃ fs', extract_page_range
        (⟨[("doc.pdf", [1, 2, 3, 4, 5, 6, 7, 8, 9, 10])], [], []⟩ : FS Nat)
        "doc.pdf" 8 20 "out.pdf" = Except.ok fs' ∧
      FS.lookup fs' "out.pdf" = some [8, 9, 10]) := by
  constructor
  · obtain ⟨fs', hok, hlook, hlen⟩ :=
      claim_C1_extract_in_range
        (⟨[("doc.pdf", [1, 2, 3, 4, 5, 6, 7, 8, 9, 10])], [], []⟩ : FS Nat)
        "doc.pdf" "out.pdf" 2 4 [1, 2, 3, 4, 5, 6, 7, 8, 9, 10]
        (by decide) (by decide) (by decide) (by decide)
    exact ⟨fs', hok, by rw [hlook]; decide, by decide⟩
  · obtain ⟨fs', hok, hlook, hlen⟩ :=
      claim_C1_extract_in_range
        (⟨[("doc.pdf", [1, 2, 3, 4, 5, 6, 7, 8, 9, 10])], [], []⟩ : FS Nat)
        "doc.pdf" "out.pdf" 8 20 [1, 2, 3, 4, 5, 6, 7, 8, 9, 10]
        (by decide) (by decide) (by decide) (by decide)
    exact ⟨fs', hok, by rw [hlook]; decide⟩

/-- C2: when `start` exceeds the page count the extractor fails with the
bounds `ValueError`, whose message names the document (`pdf_path.name`) and
its page count; when `start ≤ n` it does not fail at all. -/
theorem claim_C2_bounds_error (fs : FS α) (p out : String) (s e : Int) (pages : List α)
    (hp : FS.lookup fs p = some pages) :
    ((pages.length : Int) < s →
      extract_page_range fs p s e out =
        Except.error ("Range " ++ toString s ++ "-" ++ toString e ++ " exceeds PDF \x27" ++
          pyName p ++ "\x27 (" ++ toString ((pages.length : Int)) ++ " pages).") ∧
      ∃ pre mid post,
        ("Range " ++ toString s ++ "-" ++ toString e ++ " exceeds PDF \x27" ++
            pyName p ++ "\x27 (" ++ toString ((pages.length : Int)) ++ " pages).")
          = pre ++ pyName p ++ (mid ++ toString ((pages.length : Int)) ++ post)) ∧
    (s ≤ (pages.length : Int) →
      ∃ fs', extract_page_range fs p s e out = Except.ok fs') := by
  constructor
  · intro hlt
    refine ⟨extract_err fs p s e out pages hp hlt,
      "Range " ++ toString s ++ "-" ++ toString e ++ " exceeds PDF \x27", "\x27 (",
      " pages).", ?_⟩
    simp [String.append_assoc]
  · intro hle
    exact ⟨_, extract_ok fs p s e out pages hp hle⟩

/-- C2 witness: extracting (11, 20) from a 10-page document fails with the
out-of-bounds message, while (5, 7) succeeds. -/
theorem claim_C2_bounds_error_witness :
    (extract_page_range
        (⟨[("doc.pdf", [1, 2, 3, 4, 5, 6, 7, 8, 9, 10])], [], []⟩ : FS Nat)
        "doc.pdf" 11 20 "out.pdf" =
      Except.error "Range 11-20 exceeds PDF \x27doc.pdf\x27 (10 pages).") ∧
    (∃ fs', extract_page_range
        (⟨[("doc.pdf", [1, 2, 3, 4, 5, 6, 7, 8, 9, 10])], [], []⟩ : FS Nat)
        "doc.pdf" 5 7 "out.pdf" = Except.ok fs') := by
  constructor
  · have h := (claim_C2_bounds_error
        (⟨[("doc.pdf", [1, 2, 3, 4, 5, 6, 7, 8, 9, 10])], [], []⟩ : FS Nat)
        "doc.pdf" "out.pdf" 11 20 [1, 2, 3, 4, 5, 6, 7, 8, 9, 10] (by decide)).1
        (by decide)
    rw [h.1]; decide
  · exact (claim_C2_bounds_error
        (⟨[("doc.pdf", [1, 2, 3, 4, 5, 6, 7, 8, 9, 10])], [], []⟩ : FS Nat)
        "doc.pdf" "out.pdf" 5 7 [1, 2, 3, 4, 5, 6, 7, 8, 9, 10] (by decide)).2
        (by decide)

/-- C9 counterexample: with a 10-page document, `start = 5` and `end = -1`
satisfy `1 ≤ start ≤ n` and `end < start`, yet the extractor succeeds and
writes pages 5-9 (Python's negative slice bound counts from the end), not a
zero-page document. -/
theorem claim_C9_counterexample :
    extract_page_range
        (⟨[("doc.pdf", [1, 2, 3, 4, 5, 6, 7, 8, 9, 10])], [], []⟩ : FS Nat)
        "doc.pdf" 5 (-1) "out.pdf"
      = Except.ok ⟨[("out.pdf", [5, 6, 7, 8, 9]), ("doc.pdf", [1, 2, 3, 4, 5, 6, 7, 8, 9, 10])],
          ["."], ["out.pdf"]⟩
    ∧ (1 : Int) ≤ 5 ∧ (5 : Int) ≤ 10 ∧ (-1 : Int) < 5
    ∧ [5, 6, 7, 8, 9] ≠ ([] : List Nat) := by
  exact ⟨by decide, by decide, by decide, by decide, by decide⟩

/-- C9 (amended): called directly with `1 ≤ start ≤ n` and `end < start` the
extractor indeed performs no `start ≤ end` validation and never raises; when
moreover `0 ≤ end`, the output document written to the destination has zero
pages (a negative `end` instead selects pages by Python's end-relative
indexing and can be non-empty). -/
theorem claim_C9_inverted_range (fs : FS α) (p out : String) (s e : Int) (pages : List α)
    (hp : FS.lookup fs p = some pages) (_h1 : 1 ≤ s) (h2 : s ≤ (pages.length : Int))
    (h3 : e < s) :
    (∃ fs', extract_page_range fs p s e out = Except.ok fs') ∧
    (0 ≤ e →
      ∃ fs', extract_page_range fs p s e out = Except.ok fs' ∧
        FS.lookup fs' out = some ([] : List α)) := by
  refine ⟨⟨_, extract_ok fs p s e out pages hp h2⟩, fun he => ⟨_, extract_ok fs p s e out pages hp h2, ?_⟩⟩
  rw [FS.lookup_write_self, pySlice_empty pages (s - 1) (min e (pages.length : Int))
    (by omega) (by omega)]

/-- C9 witness: extracting (5, 2) from a 10-page document succeeds and
writes an empty document. -/
theorem claim_C9_inverted_range_witness :
    ∃ fs', extract_page_range
        (⟨[("doc.pdf", [1, 2, 3, 4, 5, 6, 7, 8, 9, 10])], [], []⟩ : FS Nat)
        "doc.pdf" 5 2 "out.pdf" = Except.ok fs' ∧
      FS.lookup fs' "out.pdf" = some ([] : List Nat) :=
  (claim_C9_inverted_range
    (⟨[("doc.pdf", [1, 2, 3, 4, 5, 6, 7, 8, 9, 10])], [], []⟩ : FS Nat)
    "doc.pdf" "out.pdf" 5 2 [1, 2, 3, 4, 5, 6, 7, 8, 9, 10]
    (by decide) (by decide) (by decide) (by decide)).2 (by decide)

/-- C10: when the destination already holds a file, extraction neither fails
nor prompts: it succeeds and the destination's contents afterwards are the
freshly extracted pages, independent of the previous contents. -/
theorem claim_C10_overwrite (fs : FS α) (p out : String) (s e : Int) (pages old : List α)
    (hp : FS.lookup fs p = some pages) (hs : s ≤ (pages.length : Int))
    (_hold : FS.lookup fs out = some old) :
    ∃ fs', extract_page_range fs p s e out = Except.ok fs' ∧
      FS.lookup fs' out = some (pySlice pages (s - 1) (min e (pages.length : Int))) := by
  exact ⟨_, extract_ok fs p s e out pages hp hs, FS.lookup_write_self _ _ _⟩

/-- C10 witness: the destination `old.pdf` previously holding pages
`[9, 9, 9]` is silently and entirely replaced by the extracted pages. -/
theorem claim_C10_overwrite_witness :
    ∃ fs', extract_page_range
        (⟨[("doc.pdf", [1, 2, 3]), ("old.pdf", [9, 9, 9])], [], []⟩ : FS Nat)
        "doc.pdf" 1 2 "old.pdf" = Except.ok fs' ∧
      FS.lookup fs' "old.pdf" = some (pySlice [1, 2, 3] ((1 : Int) - 1) (min 2 ((3 : Nat) : Int))) :=
  claim_C10_overwrite
    (⟨[("doc.pdf", [1, 2, 3]), ("old.pdf", [9, 9, 9])], [], []⟩ : FS Nat)
    "doc.pdf" "old.pdf" 1 2 [1, 2, 3] [9, 9, 9] (by decide) (by decide) (by decide)

/-! ## Claim about `parse_range` -/

/-- C3: `parse_range` returns the pair of the two whitespace-trimmed
integers around the single hyphen whenever the input splits into exactly
two integer parts with `1 ≤ start`, `1 ≤ end` and `start ≤ end`; in every
other case it fails with the invalid-range `ValueError`, whose message
includes the offending input string.  In particular `"10-25"` and
`" 10 - 25 "` parse to `(10, 25)` and `"25-10"`, `"abc-5"`, `"10"` fail. -/
theorem claim_C3_parse_range :
    (∀ s a b : String, ∀ va vb : Int, rangeParts s = [a, b] →
      pyInt? a = some va → pyInt? b = some vb →
      1 ≤ va → 1 ≤ vb → va ≤ vb → parse_range s = Except.ok (va, vb)) ∧
    (∀ s : String,
      (∃ a b : String, ∃ va vb : Int, rangeParts s = [a, b] ∧
        pyInt? a = some va ∧ pyInt? b = some vb ∧ 1 ≤ va ∧ 1 ≤ vb ∧ va ≤ vb) ∨
      parse_range s =
        Except.error ("Invalid range format: \x27" ++ s ++ "\x27. Use e.g. \x2710-25\x27.")) ∧
    parse_range "10-25" = Except.ok (10, 25) ∧
    parse_range " 10 - 25 " = Except.ok (10, 25) ∧
    parse_range "25-10" =
      Except.error ("Invalid range format: \x27" ++ "25-10" ++ "\x27. Use e.g. \x2710-25\x27.") ∧
    parse_range "abc-5" =
      Except.error ("Invalid range format: \x27" ++ "abc-5" ++ "\x27. Use e.g. \x2710-25\x27.") ∧
    parse_range "10" =
      Except.error ("Invalid range format: \x27" ++ "10" ++ "\x27. Use e.g. \x2710-25\x27.") := by
  refine ⟨?_, ?_, by decide, by decide, by decide, by decide, by decide⟩
  · intro s a b va vb hab ha hb h1 h2 h3
    unfold parse_range
    rw [hab]
    simp only [ha, hb]
    rw [if_neg (by omega)]
  · intro s
    unfold parse_range
    match h : rangeParts s with
    | [] => right; rfl
    | [a] => right; rfl
    | [a, b] =>
      cases hA : pyInt? a with
      | none => right; simp only [hA]; rfl
      | some va =>
        cases hB : pyInt? b with
        | none => right; simp only [hA, hB]; rfl
        | some vb =>
          simp only [hA, hB]
          by_cases hc : va < 1 ∨ vb < 1 ∨ va > vb
          · right; rw [if_pos hc]; rfl
          · left
            exact ⟨a, b, va, vb, rfl, hA, hB, by omega, by omega, by omega⟩
    | a :: b :: c :: t => right; rfl

/-- C3 witness: the parser applied at the concrete input `"10-25"`. -/
theorem claim_C3_parse_range_witness : parse_range "10-25" = Except.ok (10, 25) :=
  claim_C3_parse_range.1 "10-25" "10" "25" 10 25 (by decide) (by decide) (by decide)
    (by decide) (by decide) (by decide)

/-! ## Path and split helper lemmas -/

theorem splitOnChar_ne_nil (c : Char) (l : List Char) : splitOnChar c l ≠ [] := by
  cases l with
  | nil => simp [splitOnChar]
  | cons x xs =>
    simp only [splitOnChar]
    cases h : splitOnChar c xs with
    | nil => simp
    | cons r rs =>
      by_cases hx : x = c
      · simp [hx]
      · simp [hx]

theorem joinWithChar_splitOnChar (c : Char) (l : List Char) :
    joinWithChar c (splitOnChar c l) = l := by
  induction l with
  | nil => rfl
  | cons x xs ih =>
    simp only [splitOnChar]
    cases h : splitOnChar c xs with
    | nil => exact absurd h (splitOnChar_ne_nil c xs)
    | cons r rs =>
      rw [h] at ih
      change joinWithChar c (if x = c then [] :: r :: rs else (x :: r) :: rs) = x :: xs
      by_cases hx : x = c
      · rw [if_pos hx, hx]
        change ([] : List Char) ++ c :: joinWithChar c (r :: rs) = c :: xs
        rw [ih, List.nil_append]
      · rw [if_neg hx]
        cases rs with
        | nil =>
          simp only [joinWithChar] at ih ⊢
          rw [ih]
        | cons r2 rs2 =>
          simp only [joinWithChar] at ih ⊢
          rw [List.cons_append, ih]

theorem string_mk_data (s : String) : String.mk s.data = s := rfl

/-- `mkdir(parents=True)` on `p` creates in particular `p` itself. -/
theorem self_mem_pathAncestors (p : String) : p ∈ pathAncestors p := by
  unfold pathAncestors
  simp only []
  have hne : splitOnChar '/' p.data ≠ [] := splitOnChar_ne_nil '/' p.data
  have hpos : 0 < (splitOnChar '/' p.data).length := List.length_pos.mpr hne
  refine List.mem_map.mpr ⟨(splitOnChar '/' p.data).length - 1, List.mem_range.mpr (by omega), ?_⟩
  rw [Nat.sub_add_cancel (by omega), List.take_length, joinWithChar_splitOnChar,
    string_mk_data]

/-! ## Lemmas about the batch drivers -/

/-- A successful extraction appends exactly one write, creates the
destination's parent-directory chain, and adds one file binding. -/
theorem extract_ok_effects (fs fs' : FS α) (p : String) (s e : Int) (out : String)
    (h : extract_page_range fs p s e out = Except.ok fs') :
    fs'.writes = fs.writes ++ [out] ∧
    fs'.dirs = pathAncestors (parentPath out) ++ fs.dirs ∧
    ∃ c, fs'.files = (out, c) :: fs.files := by
  obtain ⟨c, rfl⟩ := extract_ok_shape fs fs' p s e out h
  exact ⟨rfl, rfl, c, rfl⟩

/-- A fully successful `process_many` loop writes exactly the planned
output paths, in input order, after any writes already in the trace. -/
theorem process_many_go_writes (pdfs : List String) :
    ∀ (fs fs' : FS α) (s e : Int) (d : String),
      process_many_go fs pdfs s e d = (fs', Except.ok ()) →
      fs'.writes = fs.writes ++ plannedOutputs pdfs s e d := by
  induction pdfs with
  | nil =>
    intro fs fs' s e d h
    simp only [process_many_go, Prod.mk.injEq] at h
    rw [← h.1]
    simp [plannedOutputs]
  | cons p rest ih =>
    intro fs fs' s e d h
    simp only [process_many_go] at h
    cases hx : extract_page_range fs p s e
        (joinPath d (pyStem p ++ "_pages_" ++ toString s ++ "-" ++ toString e ++ pySuffix p)) with
    | error m =>
      rw [hx] at h
      exact absurd (congrArg Prod.snd h) (by simp)
    | ok fs1 =>
      rw [hx] at h
      simp only [] at h
      have hw := (extract_ok_effects fs fs1 p s e _ hx).1
      rw [ih fs1 fs' s e d h, hw]
      simp [plannedOutputs, destFor, List.append_assoc]

/-- A clean interactive loop (no collected errors) writes exactly the
planned output paths, in input order. -/
theorem run_interactive_batch_writes (pdfs : List String) :
    ∀ (fs fs' : FS α) (s e : Int) (d : String),
      run_interactive_batch fs pdfs s e d = (fs', []) →
      fs'.writes = fs.writes ++ plannedOutputs pdfs s e d := by
  induction pdfs with
  | nil =>
    intro fs fs' s e d h
    simp only [run_interactive_batch, Prod.mk.injEq] at h
    rw [← h.1]
    simp [plannedOutputs]
  | cons p rest ih =>
    intro fs fs' s e d h
    simp only [run_interactive_batch] at h
    cases hx : extract_page_range fs p s e
        (joinPath d (pyStem p ++ "_pages_" ++ toString s ++ "-" ++ toString e ++ pySuffix p)) with
    | error m =>
      rw [hx] at h
      exact absurd (congrArg Prod.snd h) (by simp)
    | ok fs1 =>
      rw [hx] at h
      simp only [] at h
      have hw := (extract_ok_effects fs fs1 p s e _ hx).1
      rw [ih fs1 fs' s e d h, hw]
      simp [plannedOutputs, destFor, List.append_assoc]

/-- Processing a batch that starts with an all-successful prefix continues
from the state the prefix left behind. -/
theorem process_many_go_append_ok (xs : List String) :
    ∀ (ys : List String) (fs fs1 : FS α) (s e : Int) (d : String),
      process_many_go fs xs s e d = (fs1, Except.ok ()) →
      process_many_go fs (xs ++ ys) s e d = process_many_go fs1 ys s e d := by
  induction xs with
  | nil =>
    intro ys fs fs1 s e d h
    simp only [process_many_go, Prod.mk.injEq] at h
    rw [List.nil_append, ← h.1]
  | cons p xs ih =>
    intro ys fs fs1 s e d h
    simp only [process_many_go] at h
    simp only [List.cons_append, process_many_go]
    cases hx : extract_page_range fs p s e
        (joinPath d (pyStem p ++ "_pages_" ++ toString s ++ "-" ++ toString e ++ pySuffix p)) with
    | error m =>
      rw [hx] at h
      exact absurd (congrArg Prod.snd h) (by simp)
    | ok fsx =>
      rw [hx] at h
      simp only [] at h
      exact ih ys fsx fs1 s e d h

/-- Existing directories survive the batch loop. -/
theorem process_many_go_dirs_mono (pdfs : List String) :
    ∀ (fs : FS α) (s e : Int) (d x : String), x ∈ fs.dirs →
      x ∈ (process_many_go fs pdfs s e d).1.dirs := by
  induction pdfs with
  | nil => intro fs s e d x hx; exact hx
  | cons p rest ih =>
    intro fs s e d x hx
    simp only [process_many_go]
    cases hex : extract_page_range fs p s e
        (joinPath d (pyStem p ++ "_pages_" ++ toString s ++ "-" ++ toString e ++ pySuffix p)) with
    | error m => exact hx
    | ok fs1 =>
      refine ih fs1 s e d x ?_
      rw [(extract_ok_effects fs fs1 p s e _ hex).2.1]
      exact List.mem_append_right _ hx

/-- The loop's outcome and resulting file contents do not depend on which
directories already exist: directories are only ever created, never read. -/
theorem process_many_go_dirs_irrel (pdfs : List String) :
    ∀ (fl : List (String × List α)) (w d1 d2 : List String) (s e : Int) (dir : String),
      (process_many_go (⟨fl, d1, w⟩ : FS α) pdfs s e dir).2
        = (process_many_go (⟨fl, d2, w⟩ : FS α) pdfs s e dir).2 := by
  induction pdfs with
  | nil => intros; rfl
  | cons p rest ih =>
    intro fl w d1 d2 s e dir
    simp only [process_many_go, extract_page_range, FS.lookup]
    cases hl : lookupFile fl p with
    | none => simp only [hl]
    | some pages =>
      simp only [hl]
      by_cases hc : s > ((pages.length : Int))
      · rw [if_pos hc, if_pos hc]
      · rw [if_neg hc, if_neg hc]
        simp only [FS.write, FS.mkdirParents]
        exact ih _ _ _ _ s e dir

/-! ## Claims about the batch drivers -/

/-- C4: both the programmatic batch loop and the interactive loop write, for
each source `p` in input order, the destination
`output_dir / (p.stem ++ "_pages_" ++ start ++ "-" ++ end ++ p.suffix)`
(`destFor`); the full trace of writes of a successful run is exactly the
planned outputs in input order. -/
theorem claim_C4_output_naming (fs fs' : FS α) (pdfs : List String) (s e : Int) (d : String) :
    (process_many fs pdfs s e d = (fs', Except.ok ()) →
      fs'.writes = fs.writes ++ plannedOutputs pdfs s e d) ∧
    (run_interactive_batch fs pdfs s e d = (fs', []) →
      fs'.writes = fs.writes ++ plannedOutputs pdfs s e d) := by
  constructor
  · intro h
    exact process_many_go_writes pdfs (fs.mkdirParents d) fs' s e d h
  · intro h
    exact run_interactive_batch_writes pdfs fs fs' s e d h

/-- C4 witness: sources `a.pdf`, `b.pdf` with range (1, 2) and output
directory `out` produce `out/a_pages_1-2.pdf` then `out/b_pages_1-2.pdf`,
in that order, in both flows. -/
theorem claim_C4_output_naming_witness :
    ((⟨[("out/b_pages_1-2.pdf", [1, 2]), ("out/a_pages_1-2.pdf", [1, 2]),
        ("a.pdf", [1, 2]), ("b.pdf", [1, 2, 3])],
      ["out", "out", "out"],
      ["out/a_pages_1-2.pdf", "out/b_pages_1-2.pdf"]⟩ : FS Nat).writes
      = [] ++ plannedOutputs ["a.pdf", "b.pdf"] 1 2 "out") ∧
    ((⟨[("out/b_pages_1-2.pdf", [1, 2]), ("out/a_pages_1-2.pdf", [1, 2]),
        ("a.pdf", [1, 2]), ("b.pdf", [1, 2, 3])],
      ["out", "out"],
      ["out/a_pages_1-2.pdf", "out/b_pages_1-2.pdf"]⟩ : FS Nat).writes
      = [] ++ plannedOutputs ["a.pdf", "b.pdf"] 1 2 "out") ∧
    plannedOutputs ["a.pdf", "b.pdf"] 1 2 "out"
      = ["out/a_pages_1-2.pdf", "out/b_pages_1-2.pdf"] :=
  ⟨(claim_C4_output_naming
      (⟨[("a.pdf", [1, 2]), ("b.pdf", [1, 2, 3])], [], []⟩ : FS Nat) _
      ["a.pdf", "b.pdf"] 1 2 "out").1 (by decide),
   (claim_C4_output_naming
      (⟨[("a.pdf", [1, 2]), ("b.pdf", [1, 2, 3])], [], []⟩ : FS Nat) _
      ["a.pdf", "b.pdf"] 1 2 "out").2 (by decide),
   by decide⟩

/-- C5 counterexample: `process_many` does not return the list of written
output paths — it returns `None`.  Two successful calls that write
different paths return the very same value, so no reading of the returned
value can recover the written paths. -/
theorem claim_C5_counterexample :
    (process_many (⟨[("a.pdf", [1])], [], []⟩ : FS Nat) ["a.pdf"] 1 1 "out").2
      = (process_many (⟨[("b.pdf", [1])], [], []⟩ : FS Nat) ["b.pdf"] 1 1 "out").2 ∧
    (process_many (⟨[("a.pdf", [1])], [], []⟩ : FS Nat) ["a.pdf"] 1 1 "out").2
      = Except.ok () ∧
    (process_many (⟨[("a.pdf", [1])], [], []⟩ : FS Nat) ["a.pdf"] 1 1 "out").1.writes
      = ["out/a_pages_1-1.pdf"] ∧
    (process_many (⟨[("b.pdf", [1])], [], []⟩ : FS Nat) ["b.pdf"] 1 1 "out").1.writes
      = ["out/b_pages_1-1.pdf"] ∧
    ¬ ∃ f : Unit → List String,
        f () = ["out/a_pages_1-1.pdf"] ∧ f () = ["out/b_pages_1-1.pdf"] := by
  refine ⟨by decide, by decide, by decide, by decide, ?_⟩
  rintro ⟨f, h1, h2⟩
  rw [h1] at h2
  exact absurd h2 (by decide)

/-- C5 (amended): `process_many` takes (source paths, start, end, output
directory), writes one output per source in input order, and returns `None`
(unit); the list of written output paths is not returned but equals the
planned outputs in input order, as recorded by the write trace. -/
theorem claim_C5_process_many (fs fs' : FS α) (pdfs : List String) (s e : Int) (d : String)
    (u : Unit) (h : process_many fs pdfs s e d = (fs', Except.ok u)) :
    u = () ∧ fs'.writes = fs.writes ++ plannedOutputs pdfs s e d := by
  refine ⟨rfl, ?_⟩
  exact process_many_go_writes pdfs (fs.mkdirParents d) fs' s e d h

/-- C5 witness: a concrete single-source batch. -/
theorem claim_C5_process_many_witness :
    () = () ∧
    (⟨[("out/c_pages_1-1.pdf", [4]), ("c.pdf", [4, 5])], ["out", "out"],
        ["out/c_pages_1-1.pdf"]⟩ : FS Nat).writes
      = [] ++ plannedOutputs ["c.pdf"] 1 1 "out" :=
  claim_C5_process_many (⟨[("c.pdf", [4, 5])], [], []⟩ : FS Nat) _ ["c.pdf"] 1 1 "out" ()
    (by decide)

/-- C6: when extraction of one source fails, the interactive loop records
`(pdf.name, message)` and processes the remaining sources exactly as if the
failing one were skipped, reporting all collected failures together at the
end; the programmatic loop returns the failure at once, leaves the
filesystem as it stood (sources before the failing one already written),
and does not touch the remaining sources. -/
theorem claim_C6_error_propagation (fs : FS α) (p : String) (rest : List String)
    (s e : Int) (d msg : String)
    (h : extract_page_range fs p s e (destFor d p s e) = Except.error msg) :
    run_interactive_batch fs (p :: rest) s e d =
      ((run_interactive_batch fs rest s e d).1,
        (pyName p, msg) :: (run_interactive_batch fs rest s e d).2) ∧
    process_many_go fs (p :: rest) s e d = (fs, Except.error msg) ∧
    (∀ (pre : List String) (fs1 : FS α),
      process_many_go fs pre s e d = (fs1, Except.ok ()) →
      extract_page_range fs1 p s e (destFor d p s e) = Except.error msg →
      process_many_go fs (pre ++ p :: rest) s e d = (fs1, Except.error msg)) := by
  simp only [destFor] at h
  refine ⟨?_, ?_, ?_⟩
  · simp only [run_interactive_batch, h]
  · simp only [process_many_go, h]
  · intro pre fs1 hpre h1
    simp only [destFor] at h1
    rw [process_many_go_append_ok pre (p :: rest) fs fs1 s e d hpre]
    simp only [process_many_go, h1]

/-- C6 witness: with range (5, 9), `a.pdf` (1 page) fails while `b.pdf`
(7 pages) still gets processed and written by the interactive loop; the
programmatic loop stops at `a.pdf`. -/
theorem claim_C6_error_propagation_witness :
    (run_interactive_batch (⟨[("a.pdf", [1]), ("b.pdf", [1, 2, 3, 4, 5, 6, 7])], [], []⟩ : FS Nat)
        ["a.pdf", "b.pdf"] 5 9 "out" =
      ((run_interactive_batch
          (⟨[("a.pdf", [1]), ("b.pdf", [1, 2, 3, 4, 5, 6, 7])], [], []⟩ : FS Nat)
          ["b.pdf"] 5 9 "out").1,
        ("a.pdf", "Range 5-9 exceeds PDF \x27a.pdf\x27 (1 pages).") ::
          (run_interactive_batch
            (⟨[("a.pdf", [1]), ("b.pdf", [1, 2, 3, 4, 5, 6, 7])], [], []⟩ : FS Nat)
            ["b.pdf"] 5 9 "out").2)) ∧
    (process_many_go (⟨[("a.pdf", [1]), ("b.pdf", [1, 2, 3, 4, 5, 6, 7])], [], []⟩ : FS Nat)
        ["a.pdf", "b.pdf"] 5 9 "out" =
      ((⟨[("a.pdf", [1]), ("b.pdf", [1, 2, 3, 4, 5, 6, 7])], [], []⟩ : FS Nat),
        Except.error "Range 5-9 exceeds PDF \x27a.pdf\x27 (1 pages).")) ∧
    (run_interactive_batch (⟨[("a.pdf", [1]), ("b.pdf", [1, 2, 3, 4, 5, 6, 7])], [], []⟩ : FS Nat)
        ["b.pdf"] 5 9 "out").2 = [] ∧
    (run_interactive_batch (⟨[("a.pdf", [1]), ("b.pdf", [1, 2, 3, 4, 5, 6, 7])], [], []⟩ : FS Nat)
        ["b.pdf"] 5 9 "out").1.writes = ["out/b_pages_5-9.pdf"] := by
  have h := claim_C6_error_propagation
    (⟨[("a.pdf", [1]), ("b.pdf", [1, 2, 3, 4, 5, 6, 7])], [], []⟩ : FS Nat)
    "a.pdf" ["b.pdf"] 5 9 "out" "Range 5-9 exceeds PDF \x27a.pdf\x27 (1 pages)." (by decide)
  exact ⟨h.1, h.2.1, by decide, by decide⟩

/-- C7: after any call to `process_many` the output directory and all its
ancestors exist; directories that existed before still exist; the call's
outcome is unchanged when the output directory already exists (directory
creation uses `exist_ok=True` and never fails); and a successful extraction
leaves the destination's parent-directory chain in existence. -/
theorem claim_C7_mkdir (fs : FS α) (pdfs : List String) (s e : Int) (d : String) :
    d ∈ (process_many fs pdfs s e d).1.dirs ∧
    (∀ x, x ∈ pathAncestors d → x ∈ (process_many fs pdfs s e d).1.dirs) ∧
    (∀ x, x ∈ fs.dirs → x ∈ (process_many fs pdfs s e d).1.dirs) ∧
    (process_many (fs.mkdirParents d) pdfs s e d).2 = (process_many fs pdfs s e d).2 ∧
    (∀ (p out : String) (fs' : FS α), extract_page_range fs p s e out = Except.ok fs' →
      parentPath out ∈ fs'.dirs ∧
      ∀ x, x ∈ pathAncestors (parentPath out) → x ∈ fs'.dirs) := by
  refine ⟨?_, ?_, ?_, ?_, ?_⟩
  · exact process_many_go_dirs_mono pdfs _ s e d d
      (List.mem_append_left _ (self_mem_pathAncestors d))
  · intro x hx
    exact process_many_go_dirs_mono pdfs _ s e d x (List.mem_append_left _ hx)
  · intro x hx
    exact process_many_go_dirs_mono pdfs _ s e d x (List.mem_append_right _ hx)
  · unfold process_many
    simp only [FS.mkdirParents]
    exact process_many_go_dirs_irrel pdfs fs.files fs.writes _ _ s e d
  · intro p out fs' hex
    rw [(extract_ok_effects fs fs' p s e out hex).2.1]
    exact ⟨List.mem_append_left _ (self_mem_pathAncestors _),
      fun x hx => List.mem_append_left _ hx⟩

/-- C7 witness: the output directory `out` comes into existence and the
pre-existing directory `old` survives. -/
theorem claim_C7_mkdir_witness :
    "out" ∈ (process_many (⟨[("a.pdf", [1])], ["old"], []⟩ : FS Nat)
      ["a.pdf"] 1 1 "out").1.dirs ∧
    "old" ∈ (process_many (⟨[("a.pdf", [1])], ["old"], []⟩ : FS Nat)
      ["a.pdf"] 1 1 "out").1.dirs :=
  ⟨(claim_C7_mkdir (⟨[("a.pdf", [1])], ["old"], []⟩ : FS Nat) ["a.pdf"] 1 1 "out").1,
   (claim_C7_mkdir (⟨[("a.pdf", [1])], ["old"], []⟩ : FS Nat) ["a.pdf"] 1 1 "out").2.2.1
     "old" (by decide)⟩

/-- C8 counterexample: calling the extractor with the destination equal to
the source overwrites the source: extracting page 1 of the 2-page `a.pdf`
onto `a.pdf` itself leaves the source holding `[1]`, not its original
contents `[1, 2]`. -/
theorem claim_C8_counterexample :
    extract_page_range (⟨[("a.pdf", [1, 2])], [], []⟩ : FS Nat) "a.pdf" 1 1 "a.pdf"
      = Except.ok ⟨[("a.pdf", [1]), ("a.pdf", [1, 2])], ["."], ["a.pdf"]⟩ ∧
    FS.lookup (⟨[("a.pdf", [1]), ("a.pdf", [1, 2])], ["."], ["a.pdf"]⟩ : FS Nat) "a.pdf"
      ≠ some [1, 2] := by
  exact ⟨by decide, by decide⟩

/-- C8 (amended): provided the destination differs from the source path,
extraction leaves the source document unchanged and mutates no file other
than the destination; its only write is the destination. -/
theorem claim_C8_no_source_mutation (fs fs' : FS α) (p out : String) (s e : Int)
    (hne : out ≠ p) (h : extract_page_range fs p s e out = Except.ok fs') :
    FS.lookup fs' p = FS.lookup fs p ∧
    (∀ q, q ≠ out → FS.lookup fs' q = FS.lookup fs q) ∧
    fs'.writes = fs.writes ++ [out] := by
  obtain ⟨c, rfl⟩ := extract_ok_shape fs fs' p s e out h
  refine ⟨?_, ?_, rfl⟩
  · rw [FS.lookup_write_ne _ _ _ _ (Ne.symm hne)]
    exact FS.lookup_mkdir _ _ _
  · intro q hq
    rw [FS.lookup_write_ne _ _ _ _ hq]
    exact FS.lookup_mkdir _ _ _

/-- C8 witness: extracting from `a.pdf` to `o.pdf` leaves `a.pdf` intact
and touches no third file. -/
theorem claim_C8_no_source_mutation_witness :
    ∃ fs', extract_page_range (⟨[("a.pdf", [1, 2]), ("z.pdf", [7])], [], []⟩ : FS Nat)
        "a.pdf" 1 1 "o.pdf" = Except.ok fs' ∧
      FS.lookup fs' "a.pdf" =
        FS.lookup (⟨[("a.pdf", [1, 2]), ("z.pdf", [7])], [], []⟩ : FS Nat) "a.pdf" ∧
      FS.lookup fs' "z.pdf" =
        FS.lookup (⟨[("a.pdf", [1, 2]), ("z.pdf", [7])], [], []⟩ : FS Nat) "z.pdf" := by
  refine ⟨⟨[("o.pdf", [1]), ("a.pdf", [1, 2]), ("z.pdf", [7])], ["."], ["o.pdf"]⟩,
    by decide, ?_, ?_⟩
  · exact (claim_C8_no_source_mutation
      (⟨[("a.pdf", [1, 2]), ("z.pdf", [7])], [], []⟩ : FS Nat) _ "a.pdf" "o.pdf" 1 1
      (by decide) (by decide)).1
  · exact (claim_C8_no_source_mutation
      (⟨[("a.pdf", [1, 2]), ("z.pdf", [7])], [], []⟩ : FS Nat) _ "a.pdf" "o.pdf" 1 1
      (by decide) (by decide)).2.1 "z.pdf" (by decide)

end PdfUtil
